import Mathlib

-- Verification of the falco-operator configuration-reconciliation subsystem.
-- Shallow embedding of src/config.py (SettingRepoManager), src/charm.py
-- (Charm._configure / Charm.reconcile) and the service interface of
-- src/service.py.  External processes (git, rsync, ssh-keyscan, systemd) and
-- the filesystem are modelled by an explicit environment and state; each
-- fallible Python operation becomes an Except-valued Lean function, and the
-- observable side effects are recorded in an operation trace.

-- ## Repository-reference parsing (SettingRepoManager.__init__ and its
-- url / ref / host / sub_path properties, src/config.py lines 68-113).
--
-- `SettingRepoManager.__init__` runs `AnyUrl(charm_config.setting_repo)`
-- (pydantic).  We model pydantic's URL parsing for URI strings in authority
-- form `scheme://host[/path][?query]` over plain ASCII characters, which
-- covers every input exercised by the theorems below: parsing requires a
-- non-empty scheme before "://" and a non-empty host, and fails (pydantic
-- ValidationError) otherwise; in particular the empty string fails to parse.

/-- Split a character list at the first character satisfying `p`: returns the
prefix of characters not satisfying `p` and the remainder (which is either
empty or starts with a character satisfying `p`). -/
def splitAtFirst (p : Char → Bool) : List Char → List Char × List Char
  | [] => ([], [])
  | c :: cs =>
    if p c then ([], c :: cs)
    else
      let r := splitAtFirst p cs
      (c :: r.1, r.2)

/-- Parsed URL, modelling the pydantic `AnyUrl` value held in
`SettingRepoManager._setting_repo`: scheme, host, path (with leading slash
when present) and optional raw query string. -/
structure PUrl where
  scheme : List Char
  host : List Char
  path : List Char
  query : Option (List Char)
deriving DecidableEq, Repr

/-- Model of `AnyUrl(...)` construction on a character list: scheme up to the
first colon, then a literal "//", then host up to the first '/' or '?', then
path up to the first '?', then the query.  `none` models a pydantic
ValidationError.  Any scheme is accepted, exactly as `AnyUrl` does. -/
def parseUrlChars (cs : List Char) : Option PUrl :=
  let s := splitAtFirst (fun c => c == ':') cs
  match s.2 with
  | ':' :: '/' :: '/' :: rest2 =>
    if s.1 = [] then none
    else
      let h := splitAtFirst (fun c => c == '/' || c == '?') rest2
      if h.1 = [] then none
      else
        let pth := splitAtFirst (fun c => c == '?') h.2
        match pth.2 with
        | '?' :: q => some ⟨s.1, h.1, pth.1, some q⟩
        | _ => some ⟨s.1, h.1, pth.1, none⟩
  | _ => none

/-- Model of `AnyUrl(setting_repo)` in `SettingRepoManager.__init__`
(src/config.py line 77).  `none` models the pydantic ValidationError raised
on a malformed URL (including the empty string). -/
def parseAnyUrl (s : String) : Option PUrl := parseUrlChars s.data

/-- Split a character list on a separator character (used for splitting the
query string on '&', as the underlying URL library does). -/
def splitSegs (sep : Char) : List Char → List (List Char)
  | [] => [[]]
  | c :: cs =>
    if c = sep then [] :: splitSegs sep cs
    else
      match splitSegs sep cs with
      | [] => [[c]]
      | s :: ss => (c :: s) :: ss

/-- One `key=value` query segment split at the first '='; a segment without
'=' yields an empty value, as the URL library's query parsing does. -/
def kvOfSeg (seg : List Char) : List Char × List Char :=
  let s := splitAtFirst (fun c => c == '=') seg
  (s.1, s.2.drop 1)

/-- Query-pair list of a raw query string: split on '&', drop empty segments,
split each segment at its first '='.  Models `AnyUrl.query_params()` for
queries without percent-escapes. -/
def queryPairs (q : List Char) : List (List Char × List Char) :=
  ((splitSegs '&' q).filter (fun seg => seg ≠ [])).map kvOfSeg

/-- `self._setting_repo.query_params()`, which returns `[]` when the URL has
no query component. -/
def PUrl.queryParams (u : PUrl) : List (List Char × List Char) :=
  match u.query with
  | none => []
  | some q => queryPairs q

/-- `dict(pairs).get(key, "")`: last binding of the key wins, default is the
empty string. -/
def dictGet (k : List Char) (ps : List (List Char × List Char)) : List Char :=
  (ps.foldl (fun acc kv => if kv.1 = k then some kv.2 else acc) none).getD []

/-- Worker for Python `str.replace`: scans left to right; the counter holds
the number of remaining characters of a just-matched occurrence still to be
consumed without emitting them. -/
def replaceAux (p : Char) (ps repl : List Char) : Nat → List Char → List Char
  | _, [] => []
  | 0, c :: cs =>
    if (p :: ps).isPrefixOf (c :: cs) then
      repl ++ replaceAux p ps repl ps.length cs
    else
      c :: replaceAux p ps repl 0 cs
  | n + 1, _ :: cs => replaceAux p ps repl n cs

/-- Python `str.replace(pat, repl)` for a non-empty pattern `p :: ps`:
replaces every non-overlapping occurrence, scanning left to right. -/
def replaceFrom (p : Char) (ps repl l : List Char) : List Char :=
  replaceAux p ps repl 0 l

/-- The text Python interpolates for `f"?{self._setting_repo.query}"`:
the raw query when present, the string "None" when the query is absent. -/
def urlQueryText (u : PUrl) : List Char :=
  match u.query with
  | some q => q
  | none => "None".data

/-- `str(self._setting_repo)`: scheme, "://", host, path, and "?query" when a
query is present. -/
def PUrl.toStringModel (u : PUrl) : List Char :=
  u.scheme ++ ':' :: '/' :: '/' :: (u.host ++ u.path ++ (match u.query with
    | some q => '?' :: q
    | none => []))

/-- `SettingRepoManager.url` (src/config.py line 86):
`str(self._setting_repo).replace(f"?{self._setting_repo.query}", "")`. -/
def PUrl.urlProp (u : PUrl) : String :=
  ⟨replaceFrom '?' (urlQueryText u) [] u.toStringModel⟩

/-- `SettingRepoManager.ref` (src/config.py line 95):
`dict(self._setting_repo.query_params()).get("ref", "")`. -/
def PUrl.refProp (u : PUrl) : String := ⟨dictGet "ref".data u.queryParams⟩

/-- `SettingRepoManager.sub_path` (src/config.py line 113):
`dict(self._setting_repo.query_params()).get("sub_path", "")`. -/
def PUrl.subPathProp (u : PUrl) : String := ⟨dictGet "sub_path".data u.queryParams⟩

/-- `SettingRepoManager.host` (src/config.py line 104):
`self._setting_repo.host or ""`. -/
def PUrl.hostProp (u : PUrl) : String := ⟨u.host⟩

-- ## External environment and filesystem state for the sync subsystem.

/-- Behaviour of the external world during one reconciliation pass: whether
each external process or file write succeeds, what `ssh-keyscan -t rsa host`
prints for a given host, what `git describe --tags --exact-match` reports
(after stripping) when the repository has just been cloned at a given ref
(`none` models the command failing because HEAD is not exactly at a tag —
the situation for any branch ref on git's side), and the contents of the
`rules.d` / `config.override.d` directories of the cloned repository (`none`
models the directory being absent from the repository). -/
structure Env where
  keyWriteOk : Bool
  keyscan : String → Option String
  knownHostsWriteOk : Bool
  cloneOk : Bool
  describeAfterClone : String → Option String
  repoRules : Option (List String)
  repoConfigs : Option (List String)
  rsyncOk : Bool
  serviceRunning : Bool

/-- Local filesystem state touched by the subsystem: the file names in the
two override destination directories of the FalcoLayout, the recorded results
of the two read-only git queries against the working copy (`none` models the
query failing, which `_get_cloned_repo_url` / `_get_cloned_repo_ref` map to
the empty string; `some v` holds the post-strip output), whether the working
copy directory exists, and the contents of the SSH key file and known_hosts
file (`none` = file absent). -/
structure CharmState where
  rulesFiles : List String
  configsFiles : List String
  originQuery : Option String
  tagQuery : Option String
  workingDirExists : Bool
  keyFile : Option String
  knownHosts : Option String
deriving DecidableEq, Repr

/-- The FalcoLayout directories sync mirrors into (string form of
`falco_layout.rules_dir` and `falco_layout.configs_dir`). -/
structure Layout where
  rulesDirStr : String
  configsDirStr : String
deriving DecidableEq, Repr

/-- The derived fields of a constructed `SettingRepoManager`: its url, ref,
host and sub_path properties, and the resolved `ssh_private_key` content
(empty string when no secret is configured). -/
structure Mgr where
  url : String
  ref : String
  host : String
  sub_path : String
  sshKey : String
deriving DecidableEq, Repr

/-- The exception kinds `SettingRepoManager` raises (src/config.py
lines 35-48). -/
inductive SyncErr where
  | sshKeyWrite
  | sshKeyScan
  | gitClone
  | rsyncFail
deriving DecidableEq, Repr

/-- Observable external operations performed during sync, in order. -/
inductive Op where
  | mkdirSshDir
  | writeKeyFile (content : String)
  | keyscanHost (host : String)
  | writeKnownHosts (content : String)
  | rmtreeWorkingDir
  | gitCloneOp (cmd : List String)
  | rsyncOp (src dst : String)
  | serviceRestart
deriving DecidableEq, Repr

/-- `GIT` executable path constant (src/config.py line 20). -/
def GIT : String := "/usr/bin/git"

/-- String form of `SettingRepoManager.working_dir`
(`Path.home() / "falco_setting_repo"`, home abbreviated). -/
def workingDirStr : String := "~/falco_setting_repo"

/-- `SettingRepoManager._get_cloned_repo_url` (src/config.py lines 218-230):
the stripped output of `git -C working_dir config --get remote.origin.url`,
or the empty string when the command fails. -/
def getClonedRepoUrl (st : CharmState) : String := st.originQuery.getD ""

/-- `SettingRepoManager._get_cloned_repo_ref` (src/config.py lines 232-244):
the stripped output of `git -C working_dir describe --tags --exact-match`,
or the empty string when the command fails. -/
def getClonedRepoRef (st : CharmState) : String := st.tagQuery.getD ""

/-- The sync-state detection computed at the top of `SettingRepoManager.sync`
(src/config.py lines 139-141): `repo_cloned and repo_ref_matched`. -/
def isSynced (mgr : Mgr) (st : CharmState) : Bool :=
  (mgr.url == getClonedRepoUrl st) && (mgr.ref == getClonedRepoRef st)

/-- `SettingRepoManager._add_ssh_key` (src/config.py lines 174-183): create
the .ssh directory, then write the resolved private key to the key file with
owner-only permissions; an OSError during the write or chmod raises
SshKeyWriteError (wrapping the underlying failure via `from e`). -/
def addSshKey (env : Env) (mgr : Mgr) (st : CharmState) :
    Except SyncErr (CharmState × List Op) :=
  if env.keyWriteOk then
    .ok ({ st with keyFile := some mgr.sshKey },
         [.mkdirSshDir, .writeKeyFile mgr.sshKey])
  else
    .error .sshKeyWrite

/-- `SettingRepoManager._add_known_hosts` (src/config.py lines 185-201): run
`ssh-keyscan -t rsa host`; a CalledProcessError raises SshKeyScanError; on
success open the known_hosts file in truncating write mode ("w") and write
the scanned output; an OSError there also raises SshKeyScanError. -/
def addKnownHosts (env : Env) (mgr : Mgr) (st : CharmState) :
    Except SyncErr (CharmState × List Op) :=
  match env.keyscan mgr.host with
  | none => .error .sshKeyScan
  | some out =>
    if env.knownHostsWriteOk then
      .ok ({ st with knownHosts := some out },
           [.keyscanHost mgr.host, .writeKnownHosts out])
    else
      .error .sshKeyScan

/-- The argv built by `SettingRepoManager._git_clone` (src/config.py
lines 209-210): `git clone --depth 1 url working_dir`, plus
`--branch ref` exactly when the ref is non-empty. -/
def gitCloneCmd (mgr : Mgr) : List String :=
  [GIT, "clone", "--depth", "1", mgr.url, workingDirStr] ++
    (if mgr.ref = "" then [] else ["--branch", mgr.ref])

/-- `SettingRepoManager._git_clone` (src/config.py lines 203-216): on success
the working copy exists, its recorded remote origin URL is the cloned url and
its recorded exact-match tag is whatever `git describe` then reports; a
CalledProcessError raises GitCloneError. -/
def gitCloneStep (env : Env) (mgr : Mgr) (st : CharmState) :
    Except SyncErr (CharmState × List Op) :=
  if env.cloneOk then
    .ok ({ st with originQuery := some mgr.url,
                   tagQuery := env.describeAfterClone mgr.ref,
                   workingDirExists := true },
         [.gitCloneOp (gitCloneCmd mgr)])
  else
    .error .gitClone

/-- `pathlib` path division `a / b`, which leaves `a` unchanged when `b` is
the empty string. -/
def pathJoin (a b : String) : String := if b = "" then a else a ++ "/" ++ b

/-- Source argument of the rules rsync call:
`f"{working_dir / sub_path / 'rules.d'}/"`. -/
def rulesSrcStr (mgr : Mgr) : String :=
  pathJoin (pathJoin workingDirStr mgr.sub_path) "rules.d" ++ "/"

/-- Source argument of the configs rsync call:
`f"{working_dir / sub_path / 'config.override.d'}/"`. -/
def configsSrcStr (mgr : Mgr) : String :=
  pathJoin (pathJoin workingDirStr mgr.sub_path) "config.override.d" ++ "/"

/-- The rules-directory mirror of `SettingRepoManager.sync` (src/config.py
lines 159-160): when the cloned repository has a `rules.d` directory, run
`rsync -av --delete` from it into the layout rules dir (a full mirror, so the
destination contents become exactly the source contents); a
CalledProcessError raises RsyncError. -/
def rsyncRulesStep (env : Env) (mgr : Mgr) (layout : Layout) (st : CharmState) :
    Except SyncErr (CharmState × List Op) :=
  match env.repoRules with
  | none => .ok (st, [])
  | some files =>
    if env.rsyncOk then
      .ok ({ st with rulesFiles := files },
           [.rsyncOp (rulesSrcStr mgr) (layout.rulesDirStr ++ "/")])
    else
      .error .rsyncFail

/-- The configs-directory mirror of `SettingRepoManager.sync` (src/config.py
lines 161-162), analogous to the rules mirror. -/
def rsyncConfigsStep (env : Env) (mgr : Mgr) (layout : Layout) (st : CharmState) :
    Except SyncErr (CharmState × List Op) :=
  match env.repoConfigs with
  | none => .ok (st, [])
  | some files =>
    if env.rsyncOk then
      .ok ({ st with configsFiles := files },
           [.rsyncOp (configsSrcStr mgr) (layout.configsDirStr ++ "/")])
    else
      .error .rsyncFail

/-- `SettingRepoManager.sync` (src/config.py lines 130-163): return true
immediately when the working copy already matches; return false when the url
or host is empty; otherwise provision the SSH key and known_hosts, remove the
working copy if it exists, shallow-clone, and mirror whichever of the two
override source directories exist.  Returns the result, the new state and the
trace of external operations performed. -/
def sync (env : Env) (mgr : Mgr) (layout : Layout) (st : CharmState) :
    Except SyncErr (Bool × CharmState × List Op) :=
  if isSynced mgr st then
    .ok (true, st, [])
  else if mgr.url = "" ∨ mgr.host = "" then
    .ok (false, st, [])
  else
    match addSshKey env mgr st with
    | .error e => .error e
    | .ok (st1, ops1) =>
      match addKnownHosts env mgr st1 with
      | .error e => .error e
      | .ok (st2, ops2) =>
        let r3 :=
          if st2.workingDirExists then
            (({ st2 with workingDirExists := false,
                         originQuery := none, tagQuery := none } : CharmState),
             [Op.rmtreeWorkingDir])
          else (st2, [])
        match gitCloneStep env mgr r3.1 with
        | .error e => .error e
        | .ok (st4, ops4) =>
          match rsyncRulesStep env mgr layout st4 with
          | .error e => .error e
          | .ok (st5, ops5) =>
            match rsyncConfigsStep env mgr layout st5 with
            | .error e => .error e
            | .ok (st6, ops6) =>
              .ok (true, st6, ops1 ++ ops2 ++ r3.2 ++ ops4 ++ ops5 ++ ops6)

-- ## Reconciler (src/charm.py).

/-- The exception kinds that can cross `Charm._configure`
(src/charm.py lines 59-73): a pydantic ValidationError from URL parsing, or
one of the four SettingRepoManager errors from `sync`. -/
inductive CfgErr where
  | validation
  | gitClone
  | sshScan
  | sshKeyWrite
  | rsyncFail
deriving DecidableEq, Repr

/-- Injection of the SettingRepoManager exceptions into the exceptions
crossing `_configure`. -/
def liftSyncErr : SyncErr → CfgErr
  | .sshKeyWrite => .sshKeyWrite
  | .sshKeyScan => .sshScan
  | .gitClone => .gitClone
  | .rsyncFail => .rsyncFail

/-- `CharmConfig` (src/config.py lines 51-60) with the SSH secret already
resolved to its content, as `SettingRepoManager.ssh_private_key` does
(empty string when no secret is configured). -/
structure CharmConfigM where
  setting_repo : String
  sshKeyValue : String
deriving DecidableEq, Repr

/-- Whether a file name matches the `"*.yaml"` glob used by
`Charm._configure` (src/charm.py lines 65-68): fnmatch semantics, i.e. the
name ends with ".yaml". -/
def matchesYamlGlob (name : String) : Bool := ".yaml".data.isSuffixOf name.data

/-- The clearing branch of `Charm._configure` (src/charm.py lines 62-69):
unlink every file matching `*.yaml` in the rules dir and in the configs dir;
files not matching the glob remain. -/
def clearOverrides (st : CharmState) : CharmState :=
  { st with
    rulesFiles := st.rulesFiles.filter (fun n => !matchesYamlGlob n),
    configsFiles := st.configsFiles.filter (fun n => !matchesYamlGlob n) }

/-- The `SettingRepoManager` built by `_configure` from a successfully parsed
URL: its derived url/ref/host/sub_path properties and resolved key. -/
def mgrOfUrl (u : PUrl) (k : String) : Mgr :=
  { url := u.urlProp, ref := u.refProp, host := u.hostProp,
    sub_path := u.subPathProp, sshKey := k }

/-- `Charm._configure` (src/charm.py lines 59-73): when `setting_repo` is
empty, clear the yaml overrides and return (no service restart); otherwise
construct the SettingRepoManager (URL parse failure raises the pydantic
ValidationError), run `sync`, and call `falco_service.configure()` (daemon
reload plus service restart). -/
def configureCharm (env : Env) (layout : Layout) (cfg : CharmConfigM)
    (st : CharmState) : Except CfgErr (CharmState × List Op) :=
  if cfg.setting_repo = "" then
    .ok (clearOverrides st, [])
  else
    match parseAnyUrl cfg.setting_repo with
    | none => .error .validation
    | some u =>
      match sync env (mgrOfUrl u cfg.sshKeyValue) layout st with
      | .error e => .error (liftSyncErr e)
      | .ok r => .ok (r.2.1, r.2.2 ++ [Op.serviceRestart])

/-- The externally visible unit statuses `Charm.reconcile` can set. -/
inductive Status where
  | active
  | blockedInvalidConfig
  | blockedSyncFailed
deriving DecidableEq, Repr

/-- The exceptions that escape `Charm.reconcile` uncaught. -/
inductive Uncaught where
  | sshKeyWriteEscaped
  | serviceNotRunning
deriving DecidableEq, Repr

/-- Result of one `Charm.reconcile` run: either a unit status was set (with
the resulting filesystem state), or an exception escaped uncaught. -/
inductive Outcome where
  | status (s : Status) (st : CharmState)
  | uncaught (e : Uncaught)
deriving DecidableEq, Repr

/-- `FalcoService.check_active` (src/service.py lines 209-211):
`systemd.service_running("falco")`. -/
def checkActive (env : Env) : Bool := env.serviceRunning

/-- `Charm.reconcile` (src/charm.py lines 75-91).  The except clauses catch
pydantic.ValidationError (→ BlockedStatus "Invalid configuration") and the
tuple (ValueError, GitCloneError, SshKeyScanError, RsyncError)
(→ BlockedStatus "Failed to clone setting repo").  SshKeyWriteError is in
none of the two except tuples and is not a subclass of ValueError, so it
escapes uncaught.  After a successful `_configure`, a failing
`check_active()` raises RuntimeError; otherwise the status is active. -/
def reconcileCharm (env : Env) (layout : Layout) (cfg : CharmConfigM)
    (st : CharmState) : Outcome :=
  match configureCharm env layout cfg st with
  | .error .validation => .status .blockedInvalidConfig st
  | .error .gitClone => .status .blockedSyncFailed st
  | .error .sshScan => .status .blockedSyncFailed st
  | .error .rsyncFail => .status .blockedSyncFailed st
  | .error .sshKeyWrite => .uncaught .sshKeyWriteEscaped
  | .ok r =>
    if checkActive env then .status .active r.1 else .uncaught .serviceNotRunning

/-- Status reported by an outcome (`none` when an exception escaped). -/
def outcomeStatus : Outcome → Option Status
  | .status s _ => some s
  | .uncaught _ => none

/-- Number of `git clone` invocations in an operation trace. -/
def countClones (ops : List Op) : Nat :=
  ops.countP (fun o => match o with | .gitCloneOp _ => true | _ => false)

-- ## Character classes used as side conditions for the parsing theorems.

/-- Plain host characters: lowercase letters, digits, '.' and '-'.  These
never collide with any URI delimiter and are untouched by the URL library's
normalisation. -/
def validHostChar (c : Char) : Bool :=
  c.isLower || c.isDigit || c == '.' || c == '-'

/-- Plain path characters: host characters plus '/' and '_'. -/
def validPathChar (c : Char) : Bool :=
  validHostChar c || c == '/' || c == '_'

/-- Plain query-parameter-value characters: host characters plus '/'
and '_'. -/
def validParamChar (c : Char) : Bool :=
  validHostChar c || c == '/' || c == '_'

-- ## Concrete instances used by counterexamples and witnesses.

/-- An environment in which every external process succeeds, `ssh-keyscan`
prints a fixed host key line, no commit is at an exact tag, the cloned
repository has neither override directory, and the falco unit is running. -/
def envAllOk : Env :=
  { keyWriteOk := true
    keyscan := fun _ => some "github.com ssh-rsa AAAAB3"
    knownHostsWriteOk := true
    cloneOk := true
    describeAfterClone := fun _ => none
    repoRules := none
    repoConfigs := none
    rsyncOk := true
    serviceRunning := true }

/-- `envAllOk` except that writing the SSH key file fails with an OSError. -/
def envKeyWriteFail : Env := { envAllOk with keyWriteOk := false }

/-- `envAllOk` except that `git clone` fails. -/
def envCloneFail : Env := { envAllOk with cloneOk := false }

/-- `envAllOk` except that the falco unit is not running. -/
def envNotRunning : Env := { envAllOk with serviceRunning := false }

/-- `envAllOk` except that `ssh-keyscan` fails for every host. -/
def envScanFail : Env := { envAllOk with keyscan := fun _ => none }

/-- `envAllOk` except that writing the known_hosts file fails with an
OSError. -/
def envKnownHostsWriteFail : Env := { envAllOk with knownHostsWriteOk := false }

/-- `envAllOk` except that every ref is an exact tag after cloning and the
repository carries one rules override file. -/
def envTagged : Env :=
  { envAllOk with
    describeAfterClone := fun r => some r
    repoRules := some ["override.yaml"] }

/-- Fresh local state: empty override directories, no working copy, no SSH
files. -/
def initState : CharmState :=
  { rulesFiles := [], configsFiles := [], originQuery := none,
    tagQuery := none, workingDirExists := false, keyFile := none,
    knownHosts := none }

/-- The charm's FalcoLayout destination directories. -/
def layout0 : Layout :=
  { rulesDirStr := "falco/etc/falco/rules.d"
    configsDirStr := "falco/etc/falco/config.overrides.d" }

/-- A reference whose ref is the branch name "main" (not a tag). -/
def mgrBranch : Mgr :=
  { url := "git+ssh://github.com/user/repo.git", ref := "main",
    host := "github.com", sub_path := "", sshKey := "" }

/-- A reference whose ref is the tag "v1.0.0". -/
def mgrTag : Mgr :=
  { url := "git+ssh://github.com/user/repo.git", ref := "v1.0.0",
    host := "github.com", sub_path := "", sshKey := "" }

/-- State after the first successful sync of `mgrBranch` from `initState`
under `envAllOk`: the working copy records the cloned url, `git describe`
finds no exact tag, and the SSH files were written. -/
def branchSt1 : CharmState :=
  { rulesFiles := [], configsFiles := [],
    originQuery := some "git+ssh://github.com/user/repo.git",
    tagQuery := none, workingDirExists := true, keyFile := some "",
    knownHosts := some "github.com ssh-rsa AAAAB3" }

/-- Trace of the first `mgrBranch` sync: provisioning, then one clone. -/
def branchOps1 : List Op :=
  [.mkdirSshDir, .writeKeyFile "", .keyscanHost "github.com",
   .writeKnownHosts "github.com ssh-rsa AAAAB3",
   .gitCloneOp ["/usr/bin/git", "clone", "--depth", "1",
                "git+ssh://github.com/user/repo.git", "~/falco_setting_repo",
                "--branch", "main"]]

/-- Trace of the second `mgrBranch` sync: provisioning again, removal of the
existing working copy, and a second clone. -/
def branchOps2 : List Op :=
  [.mkdirSshDir, .writeKeyFile "", .keyscanHost "github.com",
   .writeKnownHosts "github.com ssh-rsa AAAAB3", .rmtreeWorkingDir,
   .gitCloneOp ["/usr/bin/git", "clone", "--depth", "1",
                "git+ssh://github.com/user/repo.git", "~/falco_setting_repo",
                "--branch", "main"]]

/-- A configuration with a valid git+ssh setting-repo and no secret. -/
def cfgRepo : CharmConfigM :=
  { setting_repo := "git+ssh://github.com/user/repo.git", sshKeyValue := "" }

/-- A configuration with an https setting-repo (unsupported scheme per the
spec) and no secret. -/
def cfgHttps : CharmConfigM :=
  { setting_repo := "https://github.com/user/repo.git", sshKeyValue := "" }

/-- The empty (absent) setting-repo configuration. -/
def cfgEmpty : CharmConfigM := { setting_repo := "", sshKeyValue := "" }

/-- Override directories holding one synced yaml override plus one synced
non-yaml override file each. -/
def stMixed : CharmState :=
  { initState with
    rulesFiles := ["synced_rule.yaml", "synced_list.txt"],
    configsFiles := ["synced_config.yaml", "synced_notes.md"] }

/-- `stMixed` after the yaml files were unlinked: the non-yaml override files
are still there. -/
def stMixedAfter : CharmState :=
  { initState with
    rulesFiles := ["synced_list.txt"], configsFiles := ["synced_notes.md"] }

/-- A state whose known_hosts file holds an entry for a previously
provisioned host. -/
def stOldHost : CharmState :=
  { initState with knownHosts := some "old.example.com ssh-rsa OLDKEY" }

/-- The pydantic URL value for "https://github.com/user/repo.git". -/
def uHttps : PUrl :=
  { scheme := "https".data, host := "github.com".data,
    path := "/user/repo.git".data, query := none }

-- ## Theorems.

/-- Claim C1 (code_bug evidence): constructing the repository reference from
a non-`git+ssh` URL does NOT fail.  `AnyUrl` accepts the https scheme, so
`SettingRepoManager.__init__` succeeds and a full reconciliation run with the
https URL ends in the active status rather than the blocked-invalid-
configuration status the claim (and the repository's own unit tests
`test_init_with_invalid_url` / `test_init_with_unsupported_scheme`, whose
expected error messages appear nowhere in src/) require.  The empty string is
indeed the distinguished absent state: reconciling with it reports active
without touching the repository machinery. -/
theorem scheme_validation_missing :
    (parseAnyUrl "https://github.com/user/repo.git").isSome = true ∧
    outcomeStatus (reconcileCharm envAllOk layout0 cfgHttps initState) =
      some .active ∧
    reconcileCharm envAllOk layout0 cfgEmpty initState =
      .status .active initState :=
  ⟨rfl, rfl, rfl⟩

/-- Claim C2 (counterexample): a reconciliation run in which sync raises
SshKeyWriteError does not end in a blocked status at all — the exception
escapes `Charm.reconcile` uncaught, because SshKeyWriteError is missing from
the except tuple `(ValueError, GitCloneError, SshKeyScanError, RsyncError)`
in src/charm.py line 83 and is not a subclass of any member. -/
theorem sshKeyWrite_uncaught_cex :
    reconcileCharm envKeyWriteFail layout0 cfgRepo initState =
      .uncaught .sshKeyWriteEscaped ∧
    outcomeStatus (reconcileCharm envKeyWriteFail layout0 cfgRepo initState) =
      none :=
  ⟨rfl, rfl⟩

/-- Claim C2 (amended): SshKeyWriteError from sync propagates past the
Reconciler uncaught; the errors caught and mapped to the blocked
"Failed to clone setting repo" status are GitCloneError, SshKeyScanError and
RsyncError (plus any plain ValueError), while a pydantic ValidationError is
mapped to the blocked "Invalid configuration" status.  The last conjunct
shows the SshKeyWriteError case actually arises: with a parsed reference
that is not yet synced and has non-empty url and host, a failing key-file
write surfaces as exactly that error kind. -/
theorem reconcile_error_dispatch :
    (∀ env layout cfg st, configureCharm env layout cfg st = .error .sshKeyWrite →
      reconcileCharm env layout cfg st = .uncaught .sshKeyWriteEscaped) ∧
    (∀ env layout cfg st e, configureCharm env layout cfg st = .error e →
      e = .gitClone ∨ e = .sshScan ∨ e = .rsyncFail →
      reconcileCharm env layout cfg st = .status .blockedSyncFailed st) ∧
    (∀ env layout cfg st, configureCharm env layout cfg st = .error .validation →
      reconcileCharm env layout cfg st = .status .blockedInvalidConfig st) ∧
    (∀ env layout cfg st u, parseAnyUrl cfg.setting_repo = some u →
      isSynced (mgrOfUrl u cfg.sshKeyValue) st = false →
      (mgrOfUrl u cfg.sshKeyValue).url ≠ "" →
      (mgrOfUrl u cfg.sshKeyValue).host ≠ "" →
      env.keyWriteOk = false →
      configureCharm env layout cfg st = .error .sshKeyWrite) := by
  refine ⟨?_, ?_, ?_, ?_⟩
  · intro env layout cfg st h
    simp [reconcileCharm, h]
  · intro env layout cfg st e h he
    rcases he with he | he | he <;> subst he <;> simp [reconcileCharm, h]
  · intro env layout cfg st h
    simp [reconcileCharm, h]
  · intro env layout cfg st u hparse hns hurl hhost hkw
    have hne : cfg.setting_repo ≠ "" := by
      intro h0
      rw [h0] at hparse
      simp [parseAnyUrl, parseUrlChars, splitAtFirst] at hparse
    simp [configureCharm, if_neg hne, hparse, sync, hns, hurl, hhost,
      addSshKey, hkw, liftSyncErr]

/-- Claim C2 witness: the SshKeyWriteError branch of the amended claim at a
concrete input (an https reference, a fresh state, and a failing key-file
write). -/
theorem reconcile_error_dispatch_witness :
    configureCharm envKeyWriteFail layout0 cfgHttps initState =
      .error .sshKeyWrite := by
  have h := reconcile_error_dispatch.2.2.2 envKeyWriteFail layout0 cfgHttps
    initState uHttps rfl rfl (by decide) (by decide) rfl
  exact h

/-- Claim C3 (counterexample): reconciling with an empty `setting-repo` over
override directories that contain previously synced non-yaml files does NOT
leave the directories empty — only files matching the `*.yaml` glob are
unlinked, and the other synced files remain. -/
theorem clear_overrides_partial_cex :
    reconcileCharm envAllOk layout0 cfgEmpty stMixed =
      .status .active stMixedAfter ∧
    stMixedAfter.rulesFiles = ["synced_list.txt"] ∧
    stMixedAfter.configsFiles = ["synced_notes.md"] :=
  ⟨rfl, rfl, rfl⟩

/-- Claim C3 (amended): reconciling with an empty `setting-repo` deletes
exactly the files matching the `*.yaml` glob from both override directories
(the reported status being active when the service runs); in particular both
directories end empty whenever every file in them matches the glob. -/
theorem empty_repo_clears_yaml_overrides
    (env : Env) (layout : Layout) (k : String) (st : CharmState)
    (hact : env.serviceRunning = true) :
    reconcileCharm env layout { setting_repo := "", sshKeyValue := k } st =
      .status .active (clearOverrides st) ∧
    (clearOverrides st).rulesFiles =
      st.rulesFiles.filter (fun n => !matchesYamlGlob n) ∧
    (clearOverrides st).configsFiles =
      st.configsFiles.filter (fun n => !matchesYamlGlob n) ∧
    ((∀ f ∈ st.rulesFiles, matchesYamlGlob f = true) →
      (clearOverrides st).rulesFiles = []) ∧
    ((∀ f ∈ st.configsFiles, matchesYamlGlob f = true) →
      (clearOverrides st).configsFiles = []) := by
  refine ⟨?_, rfl, rfl, ?_, ?_⟩
  · simp [reconcileCharm, configureCharm, checkActive, hact]
  · intro hall
    simp only [clearOverrides]
    rw [List.filter_eq_nil_iff]
    intro a ha
    simp [hall a ha]
  · intro hall
    simp only [clearOverrides]
    rw [List.filter_eq_nil_iff]
    intro a ha
    simp [hall a ha]

/-- Claim C3 witness: the amended claim at a concrete input: the mixed
directories end with exactly their non-yaml files. -/
theorem empty_repo_clears_yaml_overrides_witness :
    reconcileCharm envAllOk layout0 { setting_repo := "", sshKeyValue := "" }
      stMixed = .status .active stMixedAfter := by
  have h := empty_repo_clears_yaml_overrides envAllOk layout0 "" stMixed rfl
  exact h.1

/-- Claim C5: the sync-state detection is true if and only if the reference
url equals the recorded remote origin URL and the reference ref equals the
recorded exact-match tag; a failed git query is recorded as `none` and both
accessors map it to the empty string.  Both accessors are total functions —
a query failure never surfaces as an error. -/
theorem isSynced_iff :
    (∀ mgr st, isSynced mgr st = true ↔
      (mgr.url = getClonedRepoUrl st ∧ mgr.ref = getClonedRepoRef st)) ∧
    (∀ st : CharmState,
      getClonedRepoUrl ({ st with originQuery := none } : CharmState) = "" ∧
      getClonedRepoRef ({ st with tagQuery := none } : CharmState) = "") := by
  constructor
  · intro mgr st
    simp [isSynced, Bool.and_eq_true, beq_iff_eq]
  · intro st
    exact ⟨rfl, rfl⟩

/-- Claim C7: a failing private-key write raises SshKeyWriteError; a failing
rsa host-key scan raises SshKeyScanError; a failing write of the scanned
result to the known-hosts file also raises SshKeyScanError; and when the
credential resolves to empty content, an empty key file is written and no
error occurs.  (The Python `raise ... from e` exception chaining that wraps
the underlying OSError is outside the shallow embedding.) -/
theorem ssh_provisioning_errors (env : Env) (mgr : Mgr) (st : CharmState) :
    (env.keyWriteOk = false → addSshKey env mgr st = .error .sshKeyWrite) ∧
    (env.keyWriteOk = true → addSshKey env mgr st =
      .ok (({ st with keyFile := some mgr.sshKey } : CharmState),
           [.mkdirSshDir, .writeKeyFile mgr.sshKey])) ∧
    (env.keyscan mgr.host = none →
      addKnownHosts env mgr st = .error .sshKeyScan) ∧
    (∀ out, env.keyscan mgr.host = some out → env.knownHostsWriteOk = false →
      addKnownHosts env mgr st = .error .sshKeyScan) ∧
    (env.keyWriteOk = true → mgr.sshKey = "" →
      (addSshKey env mgr st).map (fun r => r.1.keyFile) = .ok (some "")) := by
  refine ⟨?_, ?_, ?_, ?_, ?_⟩
  · intro h; simp [addSshKey, h]
  · intro h; simp [addSshKey, h]
  · intro h; simp [addKnownHosts, h]
  · intro out h hw; simp [addKnownHosts, h, hw]
  · intro h hk; simp [addSshKey, h, hk, Except.map]

/-- Claim C7 witness: each provisioning failure mode, and the empty-key
success, at concrete inputs. -/
theorem ssh_provisioning_errors_witness :
    addSshKey envKeyWriteFail mgrTag initState = .error .sshKeyWrite ∧
    addKnownHosts envScanFail mgrTag initState = .error .sshKeyScan ∧
    addKnownHosts envKnownHostsWriteFail mgrTag initState =
      .error .sshKeyScan ∧
    (addSshKey envAllOk mgrTag initState).map (fun r => r.1.keyFile) =
      .ok (some "") :=
  ⟨(ssh_provisioning_errors envKeyWriteFail mgrTag initState).1 rfl,
   (ssh_provisioning_errors envScanFail mgrTag initState).2.2.1 rfl,
   (ssh_provisioning_errors envKnownHostsWriteFail mgrTag initState).2.2.2.1
     "github.com ssh-rsa AAAAB3" rfl rfl,
   (ssh_provisioning_errors envAllOk mgrTag initState).2.2.2.2 rfl rfl⟩

/-- Claim C8: after a configuration pass that completed without a caught
error, `Charm.reconcile` raises an uncaught RuntimeError when the service
supervisor reports the unit not running, and reports the active status when
it is running. -/
theorem active_check_dispatch
    (env : Env) (layout : Layout) (cfg : CharmConfigM) (st st' : CharmState)
    (ops : List Op) (h : configureCharm env layout cfg st = .ok (st', ops)) :
    reconcileCharm env layout cfg st =
      (if checkActive env then Outcome.status .active st'
       else Outcome.uncaught .serviceNotRunning) := by
  simp [reconcileCharm, h]

/-- Claim C8 witness: with the unit not running, a successful empty-config
reconciliation raises the uncaught error; with it running, the status is
active. -/
theorem active_check_dispatch_witness :
    reconcileCharm envNotRunning layout0 cfgEmpty initState =
      .uncaught .serviceNotRunning := by
  have h := active_check_dispatch envNotRunning layout0 cfgEmpty initState
    (clearOverrides initState) [] rfl
  simpa using h

/-- Claim C10: provisioning writes the known-hosts file in truncating mode:
on a successful scan and write, the file's content afterwards is exactly the
scan output for the current reference host, regardless of what the file held
before (any previously provisioned host's entry is gone). -/
theorem known_hosts_overwrite
    (env : Env) (mgr : Mgr) (st : CharmState) (out : String)
    (hscan : env.keyscan mgr.host = some out)
    (hw : env.knownHostsWriteOk = true) :
    addKnownHosts env mgr st =
      .ok (({ st with knownHosts := some out } : CharmState),
           [.keyscanHost mgr.host, .writeKnownHosts out]) := by
  simp [addKnownHosts, hscan, hw]

/-- Claim C10 witness: over a state holding an old host's entry, the file
afterwards holds only the freshly scanned entry. -/
theorem known_hosts_overwrite_witness :
    addKnownHosts envAllOk mgrTag stOldHost =
      .ok (({ stOldHost with knownHosts := some "github.com ssh-rsa AAAAB3" } : CharmState),
           [.keyscanHost "github.com",
            .writeKnownHosts "github.com ssh-rsa AAAAB3"]) :=
  known_hosts_overwrite envAllOk mgrTag stOldHost "github.com ssh-rsa AAAAB3"
    rfl rfl

/-- Claim C4 (counterexample): sync is not idempotent for a branch ref.  With
`ref=main` (a branch, so `git describe --tags --exact-match` fails on the
clone and the recorded tag is empty), the second sync call with the reference
unchanged and no external mutation does not detect the working copy as
synced: it provisions again, removes the working copy and clones a second
time — two clones across the two calls instead of the claimed one, and the
second call is not a no-op. -/
theorem sync_not_idempotent_branch_ref :
    sync envAllOk mgrBranch layout0 initState = .ok (true, branchSt1, branchOps1) ∧
    sync envAllOk mgrBranch layout0 branchSt1 = .ok (true, branchSt1, branchOps2) ∧
    countClones branchOps1 = 1 ∧
    countClones branchOps2 = 1 ∧
    branchOps2 ≠ [] :=
  ⟨rfl, rfl, rfl, rfl, by decide⟩

/-- Claim C4 (amended): sync is idempotent for references whose ref names an
exact tag of the cloned commit (including the empty ref when the cloned HEAD
carries no tag): after any successful sync call, a second call with the
reference unchanged and no external mutation detects the working copy as
already synced and is a no-op returning true — no clone, no mirror pass, no
state change.  For a branch ref (previous theorem) this fails and every call
re-clones. -/
theorem sync_idempotent_on_exact_tag
    (env : Env) (mgr : Mgr) (layout : Layout) (st0 st1 : CharmState)
    (b : Bool) (ops : List Op)
    (hurl : mgr.url ≠ "") (hhost : mgr.host ≠ "")
    (hdesc : (env.describeAfterClone mgr.ref).getD "" = mgr.ref)
    (h1 : sync env mgr layout st0 = .ok (b, st1, ops)) :
    sync env mgr layout st1 = .ok (true, st1, []) := by
  by_cases hs : isSynced mgr st0 = true
  · rw [sync, if_pos hs] at h1
    simp only [Except.ok.injEq, Prod.mk.injEq] at h1
    obtain ⟨-, hst, -⟩ := h1
    subst hst
    simp [sync, hs]
  · have hcond : ¬(mgr.url = "" ∨ mgr.host = "") := by simp [hurl, hhost]
    rw [sync, if_neg hs, if_neg hcond] at h1
    cases hkw : env.keyWriteOk <;>
      cases hkh : env.knownHostsWriteOk <;>
        cases hcl : env.cloneOk <;>
          cases hro : env.rsyncOk <;>
            cases hks : env.keyscan mgr.host <;>
              cases hrr : env.repoRules <;>
                cases hrc : env.repoConfigs <;>
                  by_cases hwd : st0.workingDirExists = true <;>
                    simp_all [addSshKey, addKnownHosts, gitCloneStep,
                      rsyncRulesStep, rsyncConfigsStep, sync, isSynced,
                      getClonedRepoUrl, getClonedRepoRef]
    all_goals
      obtain ⟨hb, hst, hops⟩ := h1
      subst hst
      simp [hdesc]

/-- Claim C4 witness: a tag reference synced twice from a fresh state; the
second call is the no-op. -/
theorem sync_idempotent_on_exact_tag_witness :
    sync envTagged mgrTag layout0
      { rulesFiles := ["override.yaml"], configsFiles := [],
        originQuery := some "git+ssh://github.com/user/repo.git",
        tagQuery := some "v1.0.0", workingDirExists := true,
        keyFile := some "", knownHosts := some "github.com ssh-rsa AAAAB3" } =
      .ok (true,
        { rulesFiles := ["override.yaml"], configsFiles := [],
          originQuery := some "git+ssh://github.com/user/repo.git",
          tagQuery := some "v1.0.0", workingDirExists := true,
          keyFile := some "", knownHosts := some "github.com ssh-rsa AAAAB3" },
        []) := by
  have h := sync_idempotent_on_exact_tag envTagged mgrTag layout0 initState
    { rulesFiles := ["override.yaml"], configsFiles := [],
      originQuery := some "git+ssh://github.com/user/repo.git",
      tagQuery := some "v1.0.0", workingDirExists := true,
      keyFile := some "", knownHosts := some "github.com ssh-rsa AAAAB3" }
    true
    [.mkdirSshDir, .writeKeyFile "", .keyscanHost "github.com",
     .writeKnownHosts "github.com ssh-rsa AAAAB3",
     .gitCloneOp ["/usr/bin/git", "clone", "--depth", "1",
                  "git+ssh://github.com/user/repo.git", "~/falco_setting_repo",
                  "--branch", "v1.0.0"],
     .rsyncOp "~/falco_setting_repo/rules.d/" "falco/etc/falco/rules.d/"]
    (by decide) (by decide) rfl rfl
  exact h

/-- Claim C6: on a non-synced reference, sync returns false without error
when the url or host is empty; otherwise (with transport provisioning
succeeding) a failing clone raises GitCloneError, and a succeeding run
removes the working copy exactly when it existed — before the single
clone — then shallow-clones with `--depth 1`, adding `--branch ref` to the
argv exactly when the ref is non-empty, leaving a working copy that records
the cloned url. -/
theorem sync_clone_behavior
    (env : Env) (mgr : Mgr) (layout : Layout) (st : CharmState)
    (hns : isSynced mgr st = false) :
    ((mgr.url = "" ∨ mgr.host = "") →
      sync env mgr layout st = .ok (false, st, [])) ∧
    (mgr.url ≠ "" → mgr.host ≠ "" → ∀ out,
      env.keyWriteOk = true → env.keyscan mgr.host = some out →
      env.knownHostsWriteOk = true →
      ((env.cloneOk = false → sync env mgr layout st = .error .gitClone) ∧
       (env.cloneOk = true → env.rsyncOk = true →
        ∃ st2 post,
          sync env mgr layout st =
            .ok (true, st2,
              ([Op.mkdirSshDir, Op.writeKeyFile mgr.sshKey,
                Op.keyscanHost mgr.host, Op.writeKnownHosts out] ++
               (if st.workingDirExists then [Op.rmtreeWorkingDir] else []) ++
               Op.gitCloneOp (gitCloneCmd mgr) :: post)) ∧
          countClones post = 0 ∧
          st2.originQuery = some mgr.url ∧
          st2.tagQuery = env.describeAfterClone mgr.ref ∧
          st2.workingDirExists = true ∧
          gitCloneCmd mgr =
            ["/usr/bin/git", "clone", "--depth", "1", mgr.url, workingDirStr] ++
              (if mgr.ref = "" then [] else ["--branch", mgr.ref])))) := by
  constructor
  · intro hor
    simp [sync, hns, hor]
  · intro hu hh out hkw hks hkh
    constructor
    · intro hcl
      by_cases hwd : st.workingDirExists <;>
        simp [sync, hns, hu, hh, addSshKey, hkw, addKnownHosts, hks, hkh,
          gitCloneStep, hcl, hwd]
    · intro hcl hro
      refine ⟨{ rulesFiles := env.repoRules.getD st.rulesFiles,
                configsFiles := env.repoConfigs.getD st.configsFiles,
                originQuery := some mgr.url,
                tagQuery := env.describeAfterClone mgr.ref,
                workingDirExists := true,
                keyFile := some mgr.sshKey,
                knownHosts := some out },
              (match env.repoRules with
               | none => []
               | some _ =>
                 [Op.rsyncOp (rulesSrcStr mgr) (layout.rulesDirStr ++ "/")]) ++
              (match env.repoConfigs with
               | none => []
               | some _ =>
                 [Op.rsyncOp (configsSrcStr mgr) (layout.configsDirStr ++ "/")]),
              ?_, ?_, rfl, rfl, rfl, rfl⟩
      · by_cases hwd : st.workingDirExists <;>
          cases hrr : env.repoRules <;>
            cases hrc : env.repoConfigs <;>
              simp [sync, hns, hu, hh, addSshKey, hkw, addKnownHosts, hks, hkh,
                gitCloneStep, hcl, hwd, rsyncRulesStep, rsyncConfigsStep, hro,
                hrr, hrc]
      · cases env.repoRules <;> cases env.repoConfigs <;> simp [countClones]

/-- Claim C6 witness: a failing clone on a fresh state surfaces as
GitCloneError, and an empty-host reference returns false without error. -/
theorem sync_clone_behavior_witness :
    sync envCloneFail mgrTag layout0 initState = .error .gitClone := by
  have h := ((sync_clone_behavior envCloneFail mgrTag layout0 initState
    (by decide)).2 (by decide) (by decide) "github.com ssh-rsa AAAAB3"
    rfl rfl rfl).1 rfl
  exact h

/-- Appending strings concatenates their character data. -/
theorem strDataApp (a b : String) : (a ++ b).data = a.data ++ b.data := by
  cases a; cases b; rfl

/-- A character list built as `String.mk s.data` is `s` itself. -/
theorem strMk_eq (l : List Char) (s : String) (h : l = s.data) :
    String.mk l = s := by
  cases s; cases h; rfl

/-- `splitAtFirst` leaves a list whole when no character satisfies the
predicate. -/
theorem splitAtFirst_none (p : Char → Bool) (l : List Char)
    (h : ∀ c ∈ l, p c = false) : splitAtFirst p l = (l, []) := by
  induction l with
  | nil => rfl
  | cons c cs ih =>
    have hc := h c (by simp)
    simp [splitAtFirst, hc, ih (fun x hx => h x (by simp [hx]))]

/-- `splitAtFirst` splits exactly at the first satisfying character. -/
theorem splitAtFirst_app (p : Char → Bool) (a : List Char) (c : Char)
    (b : List Char) (ha : ∀ x ∈ a, p x = false) (hc : p c = true) :
    splitAtFirst p (a ++ c :: b) = (a, c :: b) := by
  induction a with
  | nil => simp [splitAtFirst, hc]
  | cons d ds ih =>
    have hd := ha d (by simp)
    simp [splitAtFirst, hd, ih (fun x hx => ha x (by simp [hx]))]

/-- `splitSegs` of a separator-free list is that single segment. -/
theorem splitSegs_no (sep : Char) (l : List Char) (h : sep ∉ l) :
    splitSegs sep l = [l] := by
  induction l with
  | nil => rfl
  | cons c cs ih =>
    have hc : ¬(c = sep) := by rintro rfl; exact h (by simp)
    simp [splitSegs, hc, ih (fun hm => h (by simp [hm]))]

/-- `splitSegs` peels off the segment before the first separator. -/
theorem splitSegs_app (sep : Char) (a b : List Char) (ha : sep ∉ a) :
    splitSegs sep (a ++ sep :: b) = a :: splitSegs sep b := by
  induction a with
  | nil => simp [splitSegs]
  | cons c cs ih =>
    have hc : ¬(c = sep) := by rintro rfl; exact ha (by simp)
    simp [splitSegs, hc, ih (fun hm => ha (by simp [hm]))]

/-- A list is a prefix of itself. -/
theorem isPrefixOf_self (l : List Char) : l.isPrefixOf l = true := by
  induction l <;> simp [List.isPrefixOf, *]

/-- In skipping mode with exactly the list's length still to skip, the
replace worker consumes everything and emits nothing. -/
theorem replaceAux_skip (p : Char) (ps repl l : List Char) :
    replaceAux p ps repl l.length l = [] := by
  induction l with
  | nil => rfl
  | cons c cs ih => simpa [replaceAux] using ih

/-- Replacing a pattern that starts with a character absent from the list
leaves the list unchanged. -/
theorem replaceAux_not_mem (p : Char) (ps repl l : List Char) (h : p ∉ l) :
    replaceAux p ps repl 0 l = l := by
  induction l with
  | nil => rfl
  | cons c cs ih =>
    have hpc : (p == c) = false := by
      rw [beq_eq_false_iff_ne]
      rintro rfl
      exact h (by simp)
    simp [replaceAux, List.isPrefixOf, hpc, ih (fun hm => h (by simp [hm]))]

/-- Python `replace(pat, "")` on a string that consists of a pattern-free
prefix followed by exactly one occurrence of the pattern deletes that
occurrence. -/
theorem replaceFrom_exact (p : Char) (ps a : List Char) (h : p ∉ a) :
    replaceFrom p ps [] (a ++ p :: ps) = a := by
  rw [replaceFrom]
  induction a with
  | nil =>
    simp [replaceAux, isPrefixOf_self, replaceAux_skip]
  | cons c cs ih =>
    have hpc : (p == c) = false := by
      rw [beq_eq_false_iff_ne]
      rintro rfl
      exact h (by simp)
    simp [replaceAux, List.isPrefixOf, hpc, ih (fun hm => h (by simp [hm]))]

/-- Python `replace` with a pattern whose first character is absent from the
string is the identity. -/
theorem replaceFrom_not_mem (p : Char) (ps repl l : List Char) (h : p ∉ l) :
    replaceFrom p ps repl l = l :=
  replaceAux_not_mem p ps repl l h

/-- A character whose class predicate evaluates false is not in a list whose
characters all satisfy the predicate. -/
theorem notMemOfForall {P : Char → Bool} {l : List Char} {x : Char}
    (h : ∀ c ∈ l, P c = true) (hx : P x = false) : x ∉ l := by
  intro hm
  have hc := h x hm
  rw [hx] at hc
  exact Bool.noConfusion hc

/-- Plain host characters are distinct from every URI delimiter used by the
parser. -/
theorem validHostChar_delims (c : Char) (h : validHostChar c = true) :
    (c == '/' || c == '?') = false ∧ (c == '?') = false := by
  constructor
  · have h1 : (c == '/') = false := by
      rw [beq_eq_false_iff_ne]
      rintro rfl
      exact absurd h (by decide)
    have h2 : (c == '?') = false := by
      rw [beq_eq_false_iff_ne]
      rintro rfl
      exact absurd h (by decide)
    simp [h1, h2]
  · rw [beq_eq_false_iff_ne]
    rintro rfl
    exact absurd h (by decide)

/-- Plain path characters are distinct from '?'. -/
theorem validPathChar_delims (c : Char) (h : validPathChar c = true) :
    (c == '?') = false := by
  rw [beq_eq_false_iff_ne]
  rintro rfl
  exact absurd h (by decide)

/-- Parsing a `git+ssh` authority-form URI with a query: the scheme is
`git+ssh`, the host is the segment before the first '/', the path keeps its
leading slash, and the query is everything after the '?'. -/
theorem parse_shape (H P q : List Char) (hH0 : H ≠ [])
    (hHall : ∀ c ∈ H, (c == '/' || c == '?') = false)
    (hPall : ∀ c ∈ P, (c == '?') = false) :
    parseUrlChars (['g', 'i', 't', '+', 's', 's', 'h'] ++ ':' :: '/' :: '/' ::
        (H ++ '/' :: (P ++ '?' :: q))) =
      some ⟨['g', 'i', 't', '+', 's', 's', 'h'], H, '/' :: P, some q⟩ := by
  have h1 := splitAtFirst_app (fun c => c == ':') ['g', 'i', 't', '+', 's', 's', 'h']
    ':' ('/' :: '/' :: (H ++ '/' :: (P ++ '?' :: q))) (by decide) (by decide)
  have h2 := splitAtFirst_app (fun c => c == '/' || c == '?') H '/'
    (P ++ '?' :: q) hHall (by decide)
  have h3 := splitAtFirst_app (fun c => c == '?') P '?' q hPall (by decide)
  simp [parseUrlChars, h1, h2, h3, splitAtFirst, hH0]

/-- Parsing a `git+ssh` authority-form URI without a query component. -/
theorem parse_shape_noq (H P : List Char) (hH0 : H ≠ [])
    (hHall : ∀ c ∈ H, (c == '/' || c == '?') = false)
    (hPall : ∀ c ∈ P, (c == '?') = false) :
    parseUrlChars (['g', 'i', 't', '+', 's', 's', 'h'] ++ ':' :: '/' :: '/' ::
        (H ++ '/' :: P)) =
      some ⟨['g', 'i', 't', '+', 's', 's', 'h'], H, '/' :: P, none⟩ := by
  have h1 := splitAtFirst_app (fun c => c == ':') ['g', 'i', 't', '+', 's', 's', 'h']
    ':' ('/' :: '/' :: (H ++ '/' :: P)) (by decide) (by decide)
  have h2 := splitAtFirst_app (fun c => c == '/' || c == '?') H '/' P hHall
    (by decide)
  have h3 := splitAtFirst_none (fun c => c == '?') P hPall
  simp [parseUrlChars, h1, h2, h3, splitAtFirst, hH0]

/-- The query `ref=R&sub_path=S` parses into exactly those two pairs when the
values contain no '&'. -/
theorem queryPairs_two (Rl Sl : List Char) (hR : '&' ∉ Rl) (hS : '&' ∉ Sl) :
    queryPairs ('r' :: 'e' :: 'f' :: '=' ::
        (Rl ++ '&' :: ('s' :: 'u' :: 'b' :: '_' :: 'p' :: 'a' :: 't' :: 'h' :: '=' :: Sl))) =
      [(['r', 'e', 'f'], Rl), (['s', 'u', 'b', '_', 'p', 'a', 't', 'h'], Sl)] := by
  have hseg1 := splitSegs_app '&' Rl
    ('s' :: 'u' :: 'b' :: '_' :: 'p' :: 'a' :: 't' :: 'h' :: '=' :: Sl) hR
  have hseg2 := splitSegs_no '&' Sl hS
  have hkv1 := splitAtFirst_app (fun c => c == '=') ['r', 'e', 'f'] '=' Rl
    (by decide) (by decide)
  have hkv2 := splitAtFirst_app (fun c => c == '=')
    ['s', 'u', 'b', '_', 'p', 'a', 't', 'h'] '=' Sl (by decide) (by decide)
  simp [queryPairs, splitSegs, hseg1, hseg2, kvOfSeg, splitAtFirst, hkv1, hkv2]

/-- Claim C9: for configuration strings `git+ssh://host/path?ref=R&sub_path=S`
over plain characters, the constructed reference's url is the URI with the
query stripped, ref is R, sub_path is S and host is the URI host; and when
the query is absent, ref and sub_path default to the empty string (and the
url is the whole URI). -/
theorem parse_reference_properties (host path R S : String)
    (hh0 : host.data ≠ []) (hh : ∀ c ∈ host.data, validHostChar c = true)
    (hp : ∀ c ∈ path.data, validPathChar c = true)
    (hR : ∀ c ∈ R.data, validParamChar c = true)
    (hS : ∀ c ∈ S.data, validParamChar c = true) :
    (∃ u, parseAnyUrl
        ("git+ssh://" ++ host ++ "/" ++ path ++ "?ref=" ++ R ++ "&sub_path=" ++ S) =
        some u ∧
      u.urlProp = "git+ssh://" ++ host ++ "/" ++ path ∧
      u.refProp = R ∧ u.subPathProp = S ∧ u.hostProp = host) ∧
    (∃ u2, parseAnyUrl ("git+ssh://" ++ host ++ "/" ++ path) = some u2 ∧
      u2.refProp = "" ∧ u2.subPathProp = "" ∧
      u2.urlProp = "git+ssh://" ++ host ++ "/" ++ path ∧ u2.hostProp = host) := by
  have hHall : ∀ c ∈ host.data, (c == '/' || c == '?') = false :=
    fun c hc => (validHostChar_delims c (hh c hc)).1
  have hPall : ∀ c ∈ path.data, (c == '?') = false :=
    fun c hc => validPathChar_delims c (hp c hc)
  have hHq : '?' ∉ host.data := notMemOfForall hh (by decide)
  have hPq : '?' ∉ path.data := notMemOfForall hp (by decide)
  have hRamp : '&' ∉ R.data := notMemOfForall hR (by decide)
  have hSamp : '&' ∉ S.data := notMemOfForall hS (by decide)
  have e1 : ("git+ssh://" : String).data =
      ['g', 'i', 't', '+', 's', 's', 'h', ':', '/', '/'] := rfl
  have e2 : ("/" : String).data = ['/'] := rfl
  have e3 : ("?ref=" : String).data = ['?', 'r', 'e', 'f', '='] := rfl
  have e4 : ("&sub_path=" : String).data =
      ['&', 's', 'u', 'b', '_', 'p', 'a', 't', 'h', '='] := rfl
  have hqA : '?' ∉ (['g', 'i', 't', '+', 's', 's', 'h'] ++ ':' :: '/' :: '/' ::
      (host.data ++ '/' :: path.data)) := by
    simp +decide [List.mem_append, List.mem_cons, hHq, hPq]
  refine ⟨⟨⟨['g', 'i', 't', '+', 's', 's', 'h'], host.data, '/' :: path.data,
      some ('r' :: 'e' :: 'f' :: '=' :: (R.data ++ '&' ::
        ('s' :: 'u' :: 'b' :: '_' :: 'p' :: 'a' :: 't' :: 'h' :: '=' :: S.data)))⟩,
      ?_, ?_, ?_, ?_, ?_⟩,
    ⟨⟨['g', 'i', 't', '+', 's', 's', 'h'], host.data, '/' :: path.data, none⟩,
      ?_, rfl, rfl, ?_, rfl⟩⟩
  · have hd : ("git+ssh://" ++ host ++ "/" ++ path ++ "?ref=" ++ R ++
        "&sub_path=" ++ S).data =
        ['g', 'i', 't', '+', 's', 's', 'h'] ++ ':' :: '/' :: '/' ::
          (host.data ++ '/' :: (path.data ++ '?' :: ('r' :: 'e' :: 'f' :: '=' ::
            (R.data ++ '&' ::
              ('s' :: 'u' :: 'b' :: '_' :: 'p' :: 'a' :: 't' :: 'h' :: '=' :: S.data))))) := by
      simp [strDataApp, e1, e2, e3, e4, List.append_assoc]
    show parseUrlChars ("git+ssh://" ++ host ++ "/" ++ path ++ "?ref=" ++ R ++
        "&sub_path=" ++ S).data = _
    rw [hd]
    exact parse_shape _ _ _ hh0 hHall hPall
  · simp only [PUrl.urlProp, urlQueryText]
    have hts : PUrl.toStringModel
        ⟨['g', 'i', 't', '+', 's', 's', 'h'], host.data, '/' :: path.data,
          some ('r' :: 'e' :: 'f' :: '=' :: (R.data ++ '&' ::
            ('s' :: 'u' :: 'b' :: '_' :: 'p' :: 'a' :: 't' :: 'h' :: '=' :: S.data)))⟩ =
        (['g', 'i', 't', '+', 's', 's', 'h'] ++ ':' :: '/' :: '/' ::
          (host.data ++ '/' :: path.data)) ++ '?' ::
            ('r' :: 'e' :: 'f' :: '=' :: (R.data ++ '&' ::
              ('s' :: 'u' :: 'b' :: '_' :: 'p' :: 'a' :: 't' :: 'h' :: '=' :: S.data))) := by
      simp [PUrl.toStringModel, List.append_assoc]
    rw [hts, replaceFrom_exact '?' _ _ hqA]
    apply strMk_eq
    simp [strDataApp, e1, e2, List.append_assoc]
  · simp only [PUrl.refProp, PUrl.queryParams]
    rw [queryPairs_two _ _ hRamp hSamp]
    have hget : dictGet ("ref" : String).data
        [(['r', 'e', 'f'], R.data), (['s', 'u', 'b', '_', 'p', 'a', 't', 'h'], S.data)] =
        R.data := by
      simp +decide [dictGet]
    rw [hget]
  · simp only [PUrl.subPathProp, PUrl.queryParams]
    rw [queryPairs_two _ _ hRamp hSamp]
    have hget : dictGet ("sub_path" : String).data
        [(['r', 'e', 'f'], R.data), (['s', 'u', 'b', '_', 'p', 'a', 't', 'h'], S.data)] =
        S.data := by
      simp +decide [dictGet]
    rw [hget]
  · rfl
  · have hd : ("git+ssh://" ++ host ++ "/" ++ path).data =
        ['g', 'i', 't', '+', 's', 's', 'h'] ++ ':' :: '/' :: '/' ::
          (host.data ++ '/' :: path.data) := by
      simp [strDataApp, e1, e2, List.append_assoc]
    show parseUrlChars ("git+ssh://" ++ host ++ "/" ++ path).data = _
    rw [hd]
    exact parse_shape_noq _ _ hh0 hHall hPall
  · simp only [PUrl.urlProp, urlQueryText]
    have hts : PUrl.toStringModel
        ⟨['g', 'i', 't', '+', 's', 's', 'h'], host.data, '/' :: path.data, none⟩ =
        ['g', 'i', 't', '+', 's', 's', 'h'] ++ ':' :: '/' :: '/' ::
          (host.data ++ '/' :: path.data) := by
      simp [PUrl.toStringModel]
    rw [hts, replaceFrom_not_mem '?' _ _ _ hqA]
    apply strMk_eq
    simp [strDataApp, e1, e2, List.append_assoc]

/-- Claim C9 witness: the properties at the concrete configuration string
from the specification's end-to-end scenario 2. -/
theorem parse_reference_properties_witness :
    (∃ u, parseAnyUrl ("git+ssh://" ++ "git.example.com" ++ "/" ++ "org/repo.git" ++
        "?ref=" ++ "v2" ++ "&sub_path=" ++ "ops") = some u ∧
      u.urlProp = "git+ssh://" ++ "git.example.com" ++ "/" ++ "org/repo.git" ∧
      u.refProp = "v2" ∧ u.subPathProp = "ops" ∧ u.hostProp = "git.example.com") ∧
    (∃ u2, parseAnyUrl ("git+ssh://" ++ "git.example.com" ++ "/" ++ "org/repo.git") =
        some u2 ∧
      u2.refProp = "" ∧ u2.subPathProp = "" ∧
      u2.urlProp = "git+ssh://" ++ "git.example.com" ++ "/" ++ "org/repo.git" ∧
      u2.hostProp = "git.example.com") :=
  parse_reference_properties "git.example.com" "org/repo.git" "v2" "ops"
    (by decide) (by decide) (by decide) (by decide) (by decide)
